import Mathlib

/-!
Verification of the acme producer/consumer sample.

We shallowly embed the three processes (seller, buyer, dashboard) and the
external store's list primitives.  A redis list is modelled as `List α`
whose index 0 is the redis head, so `LPUSH` is `cons`, `RPOP` takes the
last element, `LPOP` takes the head, `LTRIM key 0 100` is `take 101`
and `LLEN` is `length`.
-/

namespace Acme

/-- `LPUSH`: insert at the head of the list. -/
def lpush {α : Type} (v : α) (l : List α) : List α := v :: l

/-- `LTRIM key 0 100`: keep the elements at indices 0..100, i.e. the 101
elements nearest the head. -/
def ltrim101 {α : Type} (l : List α) : List α := l.take 101

/-- `RPOP`: remove and return the element at the tail; `none` on an empty
list (redis returns the `redis: nil` error there). -/
def rpop {α : Type} (l : List α) : Option α × List α :=
  match l.getLast? with
  | none => (none, l)
  | some x => (some x, l.dropLast)

/-- `LPOP`: remove and return the element at the head; `none` on an empty
list. -/
def lpop {α : Type} (l : List α) : Option α × List α :=
  match l with
  | [] => (none, [])
  | x :: rest => (some x, rest)

/-- `LLEN`: the length of the list. -/
def llen {α : Type} (l : List α) : Nat := l.length

/-! ## Seller, randomized-batch variant (src/unnamed/part_001)

`sell` draws `count := rand.Intn(10)`, pushes the value `1` onto
`acme:queue` `count` times, then pushes `count` onto `acme:histogram`
and trims that buffer to 101 entries.  go-redis stores the integer `1`
as the string `"1"`, so queue entries are strings. -/

/-- `rand.Intn(10)` applied to a raw draw `r` from the generator:
the remainder of `r` modulo 10, a value in `[0, 9]`. -/
def randIntn10 (r : Nat) : Nat := r % 10

/-- The queue-push loop of `sell`: `for i := 0; i < count; i++ { LPush(keyName, 1) }`. -/
def pushOrders : Nat → List String → List String
  | 0, q => q
  | n + 1, q => pushOrders n (lpush "1" q)

/-- The body of `sell` in the randomized variant, on the success path:
push `n` orders, push `n` onto the histogram, trim the histogram. -/
def sell (n : Nat) (q : List String) (h : List Nat) : List String × List Nat :=
  (pushOrders n q, ltrim101 (lpush n h))

/-- One seller tick: draw the count with `rand.Intn(10)` from the raw
draw `r`, then run `sell`. -/
def sellTick (r : Nat) (q : List String) (h : List Nat) : List String × List Nat :=
  sell (randIntn10 r) q h

lemma pushOrders_eq (n : Nat) (q : List String) :
    pushOrders n q = List.replicate n "1" ++ q := by
  induction n generalizing q with
  | zero => rfl
  | succ m ih =>
    rw [pushOrders, ih, List.replicate_succ', List.append_assoc]
    rfl

lemma filter_mod10_block (m k : Nat) (hk : k < 10) :
    (Finset.Ico (10 * m) (10 * m + 10)).filter (fun x => x % 10 = k)
      = {10 * m + k} := by
  ext x
  simp only [Finset.mem_filter, Finset.mem_Ico, Finset.mem_singleton]
  omega

lemma card_filter_mod10 (k : Nat) (hk : k < 10) (m : Nat) :
    ((Finset.range (10 * m)).filter (fun x => x % 10 = k)).card = m := by
  induction m with
  | zero => simp
  | succ m ih =>
    have h10 : 10 * (m + 1) = 10 * m + 10 := by ring
    have hsplit : Finset.range (10 * (m + 1))
        = Finset.Ico 0 (10 * m) ∪ Finset.Ico (10 * m) (10 * m + 10) := by
      rw [h10, Finset.range_eq_Ico,
        Finset.Ico_union_Ico_eq_Ico (Nat.zero_le _) (by omega)]
    rw [hsplit, Finset.filter_union, Finset.card_union_of_disjoint
      (Finset.disjoint_filter_filter (Finset.Ico_disjoint_Ico_consecutive 0 _ _)),
      filter_mod10_block m k hk]
    rw [← Finset.range_eq_Ico] at *
    rw [ih]
    simp

/-- C1: every seller tick draws a count `N = randIntn10 r` in `[0, 9]`
(uniformly: over any `10 * m` consecutive raw draws each count value
occurs exactly `m` times), pushes exactly `N` entries `"1"` onto the
queue and exactly one histogram entry whose value is `N`; when `N = 0`
the queue is unchanged but a histogram record of `0` is still written. -/
theorem C1_seller_tick_counts (r : Nat) (q : List String) (h : List Nat) :
    randIntn10 r ≤ 9 ∧
    (sellTick r q h).1 = List.replicate (randIntn10 r) "1" ++ q ∧
    (sellTick r q h).1.length = randIntn10 r + q.length ∧
    (sellTick r q h).2 = (randIntn10 r :: h).take 101 ∧
    (sellTick r q h).2.head? = some (randIntn10 r) ∧
    (randIntn10 r = 0 → (sellTick r q h).1 = q ∧ (sellTick r q h).2.head? = some 0) ∧
    (∀ k, k < 10 → ∀ m,
      ((Finset.range (10 * m)).filter (fun x => randIntn10 x = k)).card = m) := by
  have hb : randIntn10 r ≤ 9 := by
    have := Nat.mod_lt r (show 0 < 10 by norm_num)
    simp only [randIntn10]
    omega
  refine ⟨hb, ?_, ?_, ?_, ?_, ?_, ?_⟩
  · simp [sellTick, sell, pushOrders_eq]
  · simp [sellTick, sell, pushOrders_eq]
  · rfl
  · simp [sellTick, sell, ltrim101, lpush, List.take_succ_cons]
  · intro h0
    constructor
    · simp [sellTick, sell, h0, pushOrders]
    · simp [sellTick, sell, ltrim101, lpush, h0, List.take_succ_cons]
  · intro k hk m
    exact card_filter_mod10 k hk m

/-! ## Seller, simple variant (src/unnamed/part_000)

Its `sell` pushes the single constant entry `1` onto the queue. -/

/-- `sell` of the simple seller: one `LPush(keyName, 1)`. -/
def sellSimple (q : List String) : List String := lpush "1" q

/-! ## Dashboard synthetic series generator (src/dashboard/main.go)

`getValue` consumes two draws from the global generator: `getDir`
(a `rand.Float64()` compared against 0.5, giving `+1` or `-1`, modelled
by the comparison's outcome as a `Bool`) and `getDiv`
(`rand.Intn(MaxDiv)` with `MaxDiv = 5`, modelled as a raw `Nat` draw
reduced mod 5).  A `Draw` packages the pair consumed by one `getValue`
call; distinct calls consume distinct draws. -/

structure Draw where
  dir : Bool
  div : Nat
  deriving DecidableEq

/-- `getDir`: `1` when the float draw exceeds 0.5, else `-1`. -/
def getDir (b : Bool) : ℚ := if b then 1 else -1

/-- `getDiv`: `float64(rand.Intn(5))`, a step magnitude in `[0, 4]`. -/
def getDiv (d : Nat) : ℚ := ((d % 5 : Nat) : ℚ)

/-- `getValue(seed) = seed + getDir() * getDiv()`. -/
def getValue (seed : ℚ) (c : Draw) : ℚ := seed + getDir c.dir * getDiv c.div

/-- `getHigh(open, close)`: fold `math.Max` with initial accumulator
`0.0` over `[open, close, getValue(open)]`. -/
def getHigh (op cl : ℚ) (c : Draw) : ℚ :=
  [op, cl, getValue op c].foldl max 0

/-- `getLow(open, close)`: fold `math.Min` with initial accumulator
`99999999.00` over `[open, close, getValue(open)]`; note it draws its
own fresh sample `getValue(open)`, distinct from `getHigh`'s. -/
def getLow (op cl : ℚ) (c : Draw) : ℚ :=
  [op, cl, getValue op c].foldl min 99999999

/-- `createDatapoint(seed)`: `open` and `close` are fresh `getValue(seed)`
samples (draws `c1`, `c2`), `high` and `low` consume draws `c3` and `c4`;
returns `([t, open, close, high, low], close)` where `t` is the clock. -/
def createDatapoint (t seed : ℚ) (c1 c2 c3 c4 : Draw) : List ℚ × ℚ :=
  let op := getValue seed c1
  let cl := getValue seed c2
  ([t, op, cl, getHigh op cl c3, getLow op cl c4], cl)

/-- The dashboard's synthetic-series goroutine body after
`createDatapoint`: marshal the datapoint and `LPush` it onto
`acme:histogram`.  There is no `LTrim` in this goroutine. -/
def dashboardSeriesPush (dp : List ℚ) (hist : List (List ℚ)) : List (List ℚ) :=
  lpush dp hist

/-- Pushing a sequence of datapoints in order, each via `LPush`. -/
def lpushSeq (vs : List (List ℚ)) (init : List (List ℚ)) : List (List ℚ) :=
  vs.foldl (fun h v => lpush v h) init

/-- `GET /histogram`: `RPop` the histogram key (error ignored, so an
empty buffer yields the empty string), unmarshal the JSON into `day`
(failure logged, `day` left nil and encoded as `null`), encode `day`.
The middle component is the decoded datapoint; `none` models the nil
slice, whose encoding is the body `null` rather than a float array. -/
def histogramRoute (hist : List (List ℚ)) :
    List (List ℚ) × Option (List ℚ) × List String :=
  match rpop hist with
  | (none, h2) =>
      (h2, none, ["Failed to unmarshal ticker due to unexpected end of JSON input"])
  | (some d, h2) => (h2, some d, [])

/-- C2 counterexample: the dashboard's generator inserts without any
trim, so pushing onto a buffer that already holds 101 entries leaves
102 entries — the stated bound of 101 after *every* insert fails. -/
theorem C2_counterexample :
    (dashboardSeriesPush [0, 0, 0, 0, 0] (List.replicate 101 [0, 0, 0, 0, 0])).length
      = 102 ∧ ¬ (102 ≤ 101) := by
  constructor
  · simp [dashboardSeriesPush, lpush]
  · norm_num

/-- C2 (amended): after every *seller* insert the buffer is trimmed to
the most recent 101 entries, so a seller tick never leaves more than
101; the dashboard's generator pushes without trimming and grows the
buffer by exactly one entry per insert. -/
theorem C2_histogram_trim (n : Nat) (q : List String) (h : List Nat)
    (dp : List ℚ) (hist : List (List ℚ)) :
    (sell n q h).2.length ≤ 101 ∧
    (sell n q h).2 = (n :: h).take 101 ∧
    (dashboardSeriesPush dp hist).length = hist.length + 1 := by
  refine ⟨?_, rfl, rfl⟩
  simp [sell, ltrim101, lpush]

lemma lpushSeq_eq (vs init : List (List ℚ)) :
    lpushSeq vs init = vs.reverse ++ init := by
  induction vs generalizing init with
  | nil => rfl
  | cons v rest ih => simp [lpushSeq, lpush, List.foldl, ih] at *

/-- C3 counterexample: push the datapoint `[0]` and then `[1]` onto an
empty buffer with the generator's `LPush`; `GET /histogram` pops and
returns `[0]`, the *first* push, not the most recent one `[1]`. -/
theorem C3_counterexample :
    (lpushSeq [[0], [1]] []).head? = some [1] ∧
    (histogramRoute (lpushSeq [[0], [1]] [])).2.1 = some [0] ∧
    some ([0] : List ℚ) ≠ some ([1] : List ℚ) := by
  refine ⟨rfl, rfl, ?_⟩
  simp

/-- C3 (amended): the generator pushes at the head (`LPush`) and the
route pops from the tail (`RPop`), so on a buffer built by pushing
`v :: vs` in order onto an empty buffer, `GET /histogram` returns `v`,
the least recently pushed (oldest) entry — FIFO reads, not the most
recent tick. -/
theorem C3_histogram_pops_oldest (v : List ℚ) (vs : List (List ℚ)) :
    (histogramRoute (lpushSeq (v :: vs) [])).2.1 = some v ∧
    (histogramRoute (lpushSeq (v :: vs) [])).1 = vs.reverse := by
  have h1 : lpushSeq (v :: vs) [] = vs.reverse ++ [v] := by
    rw [lpushSeq_eq]
    simp
  rw [h1]
  have h2 : rpop (vs.reverse ++ [v]) = (some v, vs.reverse) := by
    simp [rpop, List.getLast?_concat]
  simp [histogramRoute, h2]

lemma getValue_bounds (seed : ℚ) (c : Draw) :
    seed - 4 ≤ getValue seed c ∧ getValue seed c ≤ seed + 4 := by
  have h5 : c.div % 5 < 5 := Nat.mod_lt _ (by norm_num)
  have h0 : (0 : ℚ) ≤ ((c.div % 5 : Nat) : ℚ) := Nat.cast_nonneg _
  have h4 : ((c.div % 5 : Nat) : ℚ) ≤ 4 := by exact_mod_cast Nat.lt_succ_iff.mp h5
  rcases c with ⟨b, d⟩
  cases b <;> simp [getValue, getDir, getDiv] <;> constructor <;> linarith

lemma getHigh_ge (op cl : ℚ) (c : Draw) : max op cl ≤ getHigh op cl c := by
  simp only [getHigh, List.foldl]
  apply max_le <;> simp [le_max_iff]

lemma getLow_le (op cl : ℚ) (c : Draw) : getLow op cl c ≤ min op cl := by
  simp only [getLow, List.foldl]
  apply le_min <;> simp [min_le_iff]

/-- C4 counterexample: from seed `-100` with draws giving
`open = -99`, `close = -102` and a third sample `-99`, `getHigh`'s fold
starts at the accumulator `0.0`, so `high = 0` while
`max(open, close, third) = -99`; the claimed equality fails. -/
theorem C4_counterexample :
    (createDatapoint 0 (-100) ⟨true, 1⟩ ⟨false, 2⟩ ⟨true, 0⟩ ⟨true, 0⟩).1
      = [0, -99, -102, 0, -102] ∧
    max (-99 : ℚ) (max (-102) (getValue (-99) ⟨true, 0⟩)) = -99 ∧
    (0 : ℚ) ≠ -99 := by
  refine ⟨?_, ?_, by norm_num⟩
  · norm_num [createDatapoint, getHigh, getLow, getValue, getDir, getDiv,
      List.foldl, max_def, min_def]
  · norm_num [getValue, getDir, getDiv, max_def]

/-- C4 (amended): `high` equals `max(0, open, close, third)` where
`third = getValue(open)` is a fresh sample, and `low` equals
`min(99999999, open, close, fourth)` where `fourth` is a *separately
drawn* sample `getValue(open)` — `getHigh` and `getLow` each call
`getValue(open)` on their own, so the two extra samples are independent
draws, not the same value; the spec's equalities hold once the fold
accumulators are inert, i.e. when `open ≥ 0` (for `high`) and
`open ≤ 99999999` (for `low`). -/
theorem C4_high_low (t seed : ℚ) (c1 c2 c3 c4 : Draw) :
    (createDatapoint t seed c1 c2 c3 c4).1 =
      [t, getValue seed c1, getValue seed c2,
        getHigh (getValue seed c1) (getValue seed c2) c3,
        getLow (getValue seed c1) (getValue seed c2) c4] ∧
    (∀ op cl : ℚ, getHigh op cl c3 = max 0 (max op (max cl (getValue op c3)))) ∧
    (∀ op cl : ℚ, getLow op cl c4 = min 99999999 (min op (min cl (getValue op c4)))) ∧
    (∀ op cl : ℚ, 0 ≤ op → getHigh op cl c3 = max op (max cl (getValue op c3))) ∧
    (∀ op cl : ℚ, op ≤ 99999999 →
      getLow op cl c4 = min op (min cl (getValue op c4))) := by
  have hmax : ∀ op cl : ℚ,
      getHigh op cl c3 = max 0 (max op (max cl (getValue op c3))) := by
    intro op cl
    simp [getHigh, List.foldl, max_assoc]
  have hmin : ∀ op cl : ℚ,
      getLow op cl c4 = min 99999999 (min op (min cl (getValue op c4))) := by
    intro op cl
    simp [getLow, List.foldl, min_assoc]
  refine ⟨rfl, hmax, hmin, ?_, ?_⟩
  · intro op cl h0
    rw [hmax op cl]
    exact max_eq_right (le_trans h0 (le_max_left _ _))
  · intro op cl h9
    rw [hmin op cl]
    exact min_eq_right (le_trans (min_le_left _ _) h9)

/-- C4 amended theorem, witnessed at a concrete input (open `= 201`,
well inside the inert region of both fold accumulators). -/
theorem C4_high_low_witness :
    (0 : ℚ) ≤ 201 ∧ (201 : ℚ) ≤ 99999999 ∧
    getHigh 201 199 ⟨true, 3⟩ = max 201 (max 199 (getValue 201 ⟨true, 3⟩)) ∧
    getLow 201 199 ⟨false, 1⟩ = min 201 (min 199 (getValue 201 ⟨false, 1⟩)) := by
  refine ⟨by norm_num, by norm_num, ?_, ?_⟩
  · exact (C4_high_low 0 200 ⟨true, 1⟩ ⟨false, 1⟩ ⟨true, 3⟩ ⟨false, 1⟩).2.2.2.1
      201 199 (by norm_num)
  · exact (C4_high_low 0 200 ⟨true, 1⟩ ⟨false, 1⟩ ⟨true, 3⟩ ⟨false, 1⟩).2.2.2.2
      201 199 (by norm_num)

/-- C5: for any seed `S`, `open` and `close` (the fresh `getValue(S)`
samples) each lie in `[S-4, S+4]`, `high` is at least `max(open, close)`
and `low` is at most `min(open, close)`; the emitted datapoint is
`[t, open, close, high, low]` and the carried-forward seed is `close`. -/
theorem C5_synthetic_tick_bounds (t seed : ℚ) (c1 c2 c3 c4 : Draw) :
    seed - 4 ≤ getValue seed c1 ∧ getValue seed c1 ≤ seed + 4 ∧
    seed - 4 ≤ getValue seed c2 ∧ getValue seed c2 ≤ seed + 4 ∧
    max (getValue seed c1) (getValue seed c2)
      ≤ getHigh (getValue seed c1) (getValue seed c2) c3 ∧
    getLow (getValue seed c1) (getValue seed c2) c4
      ≤ min (getValue seed c1) (getValue seed c2) ∧
    (createDatapoint t seed c1 c2 c3 c4).1 =
      [t, getValue seed c1, getValue seed c2,
        getHigh (getValue seed c1) (getValue seed c2) c3,
        getLow (getValue seed c1) (getValue seed c2) c4] ∧
    (createDatapoint t seed c1 c2 c3 c4).2 = getValue seed c2 := by
  obtain ⟨h1l, h1r⟩ := getValue_bounds seed c1
  obtain ⟨h2l, h2r⟩ := getValue_bounds seed c2
  exact ⟨h1l, h1r, h2l, h2r, getHigh_ge _ _ _, getLow_le _ _ _, rfl, rfl⟩

/-! ## Fallible store calls and the process loops

Store calls can fail; `ok i` gives the outcome (`true` = success) of the
`i`-th store call of a tick.  Each process's `main` is a select loop
racing the 1-second ticker against the interrupt signal: we model its
input as a list of events. -/

/-- An event seen by a process's select loop: a timer tick or an
interrupt/termination signal. -/
inductive Ev where
  | tick
  | sigterm
  deriving DecidableEq

/-- The queue-push loop of the randomized `sell` with fallible pushes,
at store-call index `i` with `n` pushes remaining: the first failing
push stops the loop, returning the queue so far and the failing call's
index; no push is retried. -/
def pushLoopF (ok : Nat → Bool) : Nat → Nat → List String → List String × Option Nat
  | _, 0, q => (q, none)
  | i, n + 1, q =>
    if ok i then pushLoopF ok (i + 1) n (lpush "1" q) else (q, some i)

/-- The randomized `sell` with fallible store calls: queue pushes are
calls `0..n-1`, the histogram push is call `n`, the trim is call
`n + 1`; the first error aborts the rest of the tick and is returned. -/
def sellF (n : Nat) (ok : Nat → Bool) (q : List String) (h : List Nat) :
    (List String × List Nat) × Option String :=
  match pushLoopF ok 0 n q with
  | (q2, some _) => ((q2, h), some "push failed")
  | (q2, none) =>
    if ok n then
      if ok (n + 1) then ((q2, ltrim101 (lpush n h)), none)
      else ((q2, lpush n h), some "trim failed")
    else ((q2, h), some "histogram push failed")

/-- The seller's select loop: a tick logs `Selling...`, runs `sell`,
logs `Failed to sell due to ...` when it errs, and loops; a signal logs
`Leaving...`, stops the ticker and exits (the `Bool` records the exit).
Each tick event carries its drawn count and store-call outcomes. -/
def sellerLoop : List (Ev × Nat × (Nat → Bool)) → List String × List Nat →
    (List String × List Nat) × List String × Bool
  | [], s => (s, [], false)
  | (Ev.sigterm, _, _) :: _, s => (s, ["Leaving..."], true)
  | (Ev.tick, n, ok) :: rest, s =>
    let r := sellF n ok s.1 s.2
    let logs := match r.2 with
      | none => ["Selling..."]
      | some e => ["Selling...", "Failed to sell due to " ++ e]
    let cont := sellerLoop rest r.1
    (cont.1, logs ++ cont.2.1, cont.2.2)

/-! ## Buyer (src/buyer/main.go) -/

/-- `buy`: `LPop` the queue; redis answers `redis: nil` on an empty
list, which `buy` returns as the error; otherwise the popped value. -/
def buy (q : List String) : List String × Except String String :=
  match lpop q with
  | (none, q2) => (q2, Except.error "redis: nil")
  | (some v, q2) => (q2, Except.ok v)

/-- The buyer's select loop: a tick logs `Buying...`, runs `buy`, logs
`Nothing to buy` when it errs (and the popped value otherwise), and
loops; only a signal exits the process. -/
def buyerLoop : List Ev → List String → List String × List String × Bool
  | [], q => (q, [], false)
  | Ev.sigterm :: _, q => (q, ["Leaving..."], true)
  | Ev.tick :: rest, q =>
    let r := buy q
    let logs := match r.2 with
      | Except.error _ => ["Buying...", "Nothing to buy"]
      | Except.ok v => ["Buying...", v]
    let cont := buyerLoop rest r.1
    (cont.1, logs ++ cont.2.1, cont.2.2)

/-! ## Dashboard HTTP routes (src/dashboard/main.go) -/

/-- `fetch`: `LLen` on the queue key; on a store error it returns size
`0` together with the error. -/
def fetch (storeOk : Bool) (q : List String) : Nat × Option String :=
  if storeOk then (llen q, none) else (0, some "store read failed")

/-- `GET /size`: writes status 200 and the body
`{ "size": <n> }` where `<n>` comes from `fetch`, whose error is
discarded (`size, _ := fetch()`). -/
def sizeRoute (storeOk : Bool) (q : List String) : Nat × String :=
  (200, "\x7b \"size\": " ++ toString (fetch storeOk q).1 ++ " \x7d")

lemma replicate_append_cons {α : Type} (a : α) (k : Nat) (l : List α) :
    List.replicate k a ++ a :: l = List.replicate (k + 1) a ++ l := by
  rw [List.replicate_succ', List.append_assoc]
  rfl

lemma pushLoopF_first_fail (ok : Nat → Bool) :
    ∀ k j n q, (∀ i, i < k → ok (j + i) = true) → ok (j + k) = false → k < n →
      pushLoopF ok j n q = (List.replicate k "1" ++ q, some (j + k)) := by
  intro k
  induction k with
  | zero =>
    intro j n q _ hfail hn
    have hf : ok j = false := by simpa using hfail
    match n, hn with
    | m + 1, _ => simp [pushLoopF, hf]
  | succ k ih =>
    intro j n q hok hfail hn
    match n, hn with
    | m + 1, _ =>
      have hj : ok j = true := by
        have := hok 0 (Nat.succ_pos k)
        simpa using this
      rw [pushLoopF, if_pos hj]
      have h1 : ∀ i, i < k → ok (j + 1 + i) = true := by
        intro i hi
        have := hok (i + 1) (by omega)
        rwa [show j + (i + 1) = j + 1 + i by omega] at this
      have h2 : ok (j + 1 + k) = false := by
        rwa [show j + (k + 1) = j + 1 + k by omega] at hfail
      have h3 : k < m := by omega
      rw [ih (j + 1) m (lpush "1" q) h1 h2 h3]
      rw [lpush, replicate_append_cons]
      have : j + 1 + k = j + (k + 1) := by omega
      rw [this]

/-- C6: when the `k`-th queue push of a tick fails, `sell` stops after
exactly `k` pushed entries (the remaining pushes and the histogram write
are aborted, nothing is retried), returns the error, and the seller's
loop logs the failure and carries on with the next events. -/
theorem C6_push_failure_aborts_tick (n k : Nat) (ok : Nat → Bool)
    (q : List String) (h : List Nat) (rest : List (Ev × Nat × (Nat → Bool)))
    (hk : k < n) (hfail : ok k = false) (hok : ∀ i, i < k → ok i = true) :
    sellF n ok q h = ((List.replicate k "1" ++ q, h), some "push failed") ∧
    sellerLoop ((Ev.tick, n, ok) :: rest) (q, h) =
      ((sellerLoop rest (List.replicate k "1" ++ q, h)).1,
        "Selling..." :: "Failed to sell due to push failed" ::
          (sellerLoop rest (List.replicate k "1" ++ q, h)).2.1,
        (sellerLoop rest (List.replicate k "1" ++ q, h)).2.2) := by
  have hp : pushLoopF ok 0 n q = (List.replicate k "1" ++ q, some (0 + k)) := by
    refine pushLoopF_first_fail ok k 0 n q ?_ ?_ hk
    · intro i hi
      simpa using hok i hi
    · simpa using hfail
  have hs : sellF n ok q h = ((List.replicate k "1" ++ q, h), some "push failed") := by
    simp [sellF, hp]
  have hmsg : "Failed to sell due to " ++ "push failed"
      = "Failed to sell due to push failed" := rfl
  refine ⟨hs, ?_⟩
  simp only [sellerLoop, hs, hmsg]
  rfl

/-- C6 theorem, witnessed on a tick with one requested push whose first
store call fails. -/
theorem C6_witness :
    sellF 1 (fun _ => false) [] [] =
      ((List.replicate 0 "1" ++ [], []), some "push failed") ∧
    sellerLoop [(Ev.tick, 1, fun _ => false)] ([], []) =
      ((sellerLoop [] (List.replicate 0 "1" ++ [], [])).1,
        "Selling..." :: "Failed to sell due to push failed" ::
          (sellerLoop [] (List.replicate 0 "1" ++ [], [])).2.1,
        (sellerLoop [] (List.replicate 0 "1" ++ [], [])).2.2) :=
  C6_push_failure_aborts_tick 1 0 (fun _ => false) [] [] []
    (by norm_num) rfl (fun i hi => absurd hi (Nat.not_lt_zero i))

/-- C7: popping with an empty queue yields the `redis: nil` error, the
buyer's loop logs `Nothing to buy` informationally and keeps processing
events; on a run of pure tick events the process never exits and every
tick contributes its two log lines. -/
theorem C7_empty_queue_pop_not_fatal (rest : List Ev) :
    buy [] = ([], Except.error "redis: nil") ∧
    buyerLoop (Ev.tick :: rest) [] =
      ((buyerLoop rest []).1,
        "Buying..." :: "Nothing to buy" :: (buyerLoop rest []).2.1,
        (buyerLoop rest []).2.2) ∧
    ∀ evs : List Ev, (∀ e ∈ evs, e = Ev.tick) →
      (buyerLoop evs []).2.2 = false ∧
      (buyerLoop evs []).2.1.length = 2 * evs.length := by
  refine ⟨rfl, ?_, ?_⟩
  · simp [buyerLoop, buy, lpop]
  · intro evs
    induction evs with
    | nil => exact fun _ => ⟨rfl, rfl⟩
    | cons e tl ih =>
      intro hall
      have he : e = Ev.tick := hall e (List.mem_cons_self _ _)
      subst he
      obtain ⟨ih1, ih2⟩ := ih (fun x hx => hall x (List.mem_cons_of_mem _ hx))
      constructor
      · simpa [buyerLoop, buy, lpop] using ih1
      · simp [buyerLoop, buy, lpop, ih2]
        omega

/-- C7 theorem, witnessed on a single tick against the empty queue. -/
theorem C7_witness :
    (buyerLoop [Ev.tick] []).2.2 = false ∧
    (buyerLoop [Ev.tick] []).2.1.length = 2 * [Ev.tick].length :=
  (C7_empty_queue_pop_not_fatal []).2.2 [Ev.tick] (fun e he => by simpa using he)

/-- C8: `GET /size` answers 200 with body `{ "size": <n> }` where `<n>`
is the queue length; when the store read fails `fetch` returns the error
but the handler discards it and reports size `0`, still with 200. -/
theorem C8_size_route (q : List String) :
    sizeRoute true q = (200, "\x7b \"size\": " ++ toString q.length ++ " \x7d") ∧
    sizeRoute false q = (200, "\x7b \"size\": 0 \x7d") ∧
    (fetch false q).2 = some "store read failed" ∧
    ∀ b : Bool, (sizeRoute b q).1 = 200 := by
  refine ⟨rfl, ?_, rfl, fun b => rfl⟩
  rw [show sizeRoute false q
      = (200, "\x7b \"size\": " ++ toString (0 : Nat) ++ " \x7d") from rfl]
  decide

/-- C9: `GET /histogram` on an empty buffer leaves the buffer empty,
logs the unmarshal failure of the empty pop result, and produces the nil
day (`none`, encoded as `null` — not a 5-float datapoint); the handler
returns normally. -/
theorem C9_empty_histogram_route :
    histogramRoute [] =
      ([], none,
        ["Failed to unmarshal ticker due to unexpected end of JSON input"]) := rfl

/-- C10: both seller variants only ever push the entry `"1"` (the simple
variant pushes one per tick, the randomized one `n` per tick), pushing
preserves the all-ones invariant, and a successful buyer pop from an
all-ones queue yields `"1"`. -/
theorem C10_all_entries_one (q : List String) (n : Nat) (h : List Nat) :
    sellSimple q = "1" :: q ∧
    (sell n q h).1 = List.replicate n "1" ++ q ∧
    ((∀ x ∈ q, x = "1") → ∀ x ∈ (sell n q h).1, x = "1") ∧
    ((∀ x ∈ q, x = "1") → ∀ x ∈ sellSimple q, x = "1") ∧
    ((∀ x ∈ q, x = "1") → q ≠ [] → (buy q).2 = Except.ok "1") := by
  have hs : (sell n q h).1 = List.replicate n "1" ++ q := by
    simp [sell, pushOrders_eq]
  refine ⟨rfl, hs, ?_, ?_, ?_⟩
  · intro hq x hx
    rw [hs] at hx
    rcases List.mem_append.mp hx with h1 | h2
    · exact List.eq_of_mem_replicate h1
    · exact hq x h2
  · intro hq x hx
    rcases List.mem_cons.mp hx with h1 | h2
    · exact h1
    · exact hq x h2
  · intro hq hne
    match q, hne with
    | v :: rest, _ =>
      have hv : v = "1" := hq v (List.mem_cons_self _ _)
      simp [buy, lpop, hv]

/-- C10 theorem, witnessed on the queue `["1"]` left by one simple-seller
tick, with a randomized tick of two pushes on top. -/
theorem C10_witness :
    (∀ x ∈ (sell 2 ["1"] []).1, x = "1") ∧ (buy ["1"]).2 = Except.ok "1" :=
  ⟨(C10_all_entries_one ["1"] 2 []).2.2.1 (by simp),
    (C10_all_entries_one ["1"] 2 []).2.2.2.2 (by simp) (by simp)⟩

/-- C1 theorem, witnessed at the raw draw `20` (count `0`: queue
untouched, histogram records `0`) and uniformity checked over two
periods for the count value `3`. -/
theorem C1_witness :
    randIntn10 20 = 0 ∧ (sellTick 20 ["1"] [5]).1 = ["1"] ∧
    (sellTick 20 ["1"] [5]).2.head? = some 0 ∧
    ((Finset.range (10 * 2)).filter (fun x => randIntn10 x = 3)).card = 2 := by
  have h := C1_seller_tick_counts 20 ["1"] [5]
  exact ⟨rfl, (h.2.2.2.2.2.1 rfl).1, (h.2.2.2.2.2.1 rfl).2,
    h.2.2.2.2.2.2 3 (by norm_num) 2⟩

end Acme
